import Mathlib

/-!
Verification of the propositional natural-deduction core: the formula
lexer/parser and the proof-rule engine (`applyRule`).  The definitions below
are a shallow embedding of `src/backend/src/logics/engine.ts` (rule engine,
shared types) and `src/backend/dist/logics/engine.js` (`tokenize`, `parse`).
-/

/-- Connectives, from `type Connective = 'NOT' | 'AND' | 'OR' | 'IMPLIES'`. -/
inductive Connective where
  | not
  | and
  | or
  | implies
deriving DecidableEq, Repr

/-- The formula AST, from the tagged union `type Formula` in `types.ts`:
`ATOM {name}`, `NOT {formula}`, `BINARY {connective, left, right}`. -/
inductive Formula where
  | atom (name : String)
  | not (formula : Formula)
  | binary (connective : Connective) (left : Formula) (right : Formula)
deriving DecidableEq, Repr

/-- Rule names, from `type RuleName` in `types.ts`. -/
inductive RuleName where
  | mp
  | ci
  | ceLeft
  | ceRight
  | dn
  | diLeft
  | diRight
  | ds
  | ii
  | assume
deriving DecidableEq, Repr

/-- A proof step, from `type ProofStep` in `types.ts`.  The optional field
`isDischarged?: boolean` is modelled as `Option Bool`, `none` when absent. -/
structure ProofStep where
  id : Nat
  formula : Formula
  rule : RuleName
  justification : List Nat
  depth : Nat
  isDischarged : Option Bool := none
deriving DecidableEq, Repr

/-- The proof state, from `type ProofState` in `types.ts`. -/
structure ProofState where
  premises : List ProofStep
  goal : Formula
  currentSteps : List ProofStep
  nextId : Nat
deriving DecidableEq, Repr

/-- Hexadecimal digit as emitted by `JSON.stringify` in `\u00XX` escapes
(lower case). -/
def hexDigit : Nat → Char
  | 0 => '0'
  | 1 => '1'
  | 2 => '2'
  | 3 => '3'
  | 4 => '4'
  | 5 => '5'
  | 6 => '6'
  | 7 => '7'
  | 8 => '8'
  | 9 => '9'
  | 10 => 'a'
  | 11 => 'b'
  | 12 => 'c'
  | 13 => 'd'
  | 14 => 'e'
  | 15 => 'f'
  | _ => '0'

/-- JSON escaping of one character inside a string literal, as performed by
`JSON.stringify`: `"` and `\` get a backslash escape, the named control
characters get their two-character escapes, all other control characters
below U+0020 become `\u00XX`, and every other character is emitted as is. -/
def escChar (c : Char) : List Char :=
  if c = '"' then ['\\', '"']
  else if c = '\\' then ['\\', '\\']
  else if c = '\x08' then ['\\', 'b']
  else if c = '\x0c' then ['\\', 'f']
  else if c = '\n' then ['\\', 'n']
  else if c = '\r' then ['\\', 'r']
  else if c = '\t' then ['\\', 't']
  else if c.toNat < 32 then ['\\', 'u', '0', '0', hexDigit (c.toNat / 16), hexDigit (c.toNat % 16)]
  else [c]

/-- JSON escaping of a whole string (character list). -/
def escapeL : List Char → List Char
  | [] => []
  | c :: rest => escChar c ++ escapeL rest

/-- The JSON name of a connective. -/
def connChars : Connective → List Char
  | .not => "NOT".data
  | .and => "AND".data
  | .or => "OR".data
  | .implies => "IMPLIES".data

/-- `JSON.stringify` of a `Formula`, character by character.  Key order is the
property-creation order of the object literals in the source (`type` first,
then `name` / `formula` / `connective`, `left`, `right`); `JSON.stringify`
emits no whitespace.  Braces are written with `\x7b` and `\x7d` escapes. -/
def serialize : Formula → List Char
  | .atom n =>
      "\x7b\"type\":\"ATOM\",\"name\":\"".data ++ escapeL n.data ++ "\"\x7d".data
  | .not f =>
      "\x7b\"type\":\"NOT\",\"formula\":".data ++ serialize f ++ "\x7d".data
  | .binary c l r =>
      "\x7b\"type\":\"BINARY\",\"connective\":\"".data ++ connChars c
        ++ "\",\"left\":".data ++ serialize l
        ++ ",\"right\":".data ++ serialize r ++ "\x7d".data

/-- `JSON.stringify` of a `Formula`, as a string. -/
def jsonStringify (f : Formula) : String :=
  String.mk (serialize f)

/-- From `engine.ts`: `isFormulaEqual(f1, f2)` returns
`JSON.stringify(f1) === JSON.stringify(f2)`. -/
def isFormulaEqual (f1 f2 : Formula) : Bool :=
  jsonStringify f1 == jsonStringify f2

/-- Reference recursive structural equality on formulas, written from the
spec's words: "exact recursive equality of the Formula tree (tag and all
fields)".  Used only to compare against `isFormulaEqual` (claim C9). -/
def structEq : Formula → Formula → Bool
  | .atom n1, .atom n2 => n1 == n2
  | .not f1, .not f2 => structEq f1 f2
  | .binary c1 l1 r1, .binary c2 l2 r2 => c1 == c2 && structEq l1 l2 && structEq r1 r2
  | _, _ => false

/-- Typed failures of `applyRule`.  The source throws `Error` objects; each
constructor carries the thrown message and corresponds to one error kind of
the spec's taxonomy.  `typeError` models a JavaScript `TypeError` raised by
reading a property of `undefined` (it is reachable in the `CI` branch, which
lacks the `premises.length !== 2` check present in `MP` and `DS`). -/
inductive RuleError where
  | arityMismatch (msg : String)
  | stepNotFound (msg : String)
  | missingSecondaryFormula (msg : String)
  | patternMismatch (msg : String)
  | notImplemented (msg : String)
  | typeError (msg : String)
deriving DecidableEq, Repr

/-- The rule engine, from `applyRule` in `engine.ts`.  A thrown `Error`
becomes `Except.error`; each branch mirrors the corresponding source branch,
including the exact order of checks. -/
def applyRule (state : ProofState) (rule : RuleName) (selectedStepIds : List Nat)
    (newFormulaAst : Option Formula) : Except RuleError ProofState :=
  match rule with
  | .mp =>
    match selectedStepIds with
    | [a, b] =>
      match [a, b].filterMap (fun i => state.currentSteps.find? (fun step => step.id == i)) with
      | [p1, p2] =>
        let mp2 : Except RuleError ProofState :=
          match p2.formula with
          | .binary .implies l r =>
            if isFormulaEqual l p1.formula then
              .ok { state with
                currentSteps := state.currentSteps ++
                  [{ id := state.nextId, formula := r, rule := rule,
                     justification := [a, b], depth := max p1.depth p2.depth }],
                nextId := state.nextId + 1 }
            else
              .error (.patternMismatch "MP: The selected premises do not match the form (A -> B) and A.")
          | _ =>
            .error (.patternMismatch "MP: The selected premises do not match the form (A -> B) and A.")
        match p1.formula with
        | .binary .implies l r =>
          if isFormulaEqual l p2.formula then
            .ok { state with
              currentSteps := state.currentSteps ++
                [{ id := state.nextId, formula := r, rule := rule,
                   justification := [a, b], depth := max p1.depth p2.depth }],
              nextId := state.nextId + 1 }
          else mp2
        | _ => mp2
      | _ => .error (.stepNotFound "One or both selected steps were not found.")
    | _ => .error (.arityMismatch "MP (Modus Ponens) requires exactly two premises.")
  | .ci =>
    match selectedStepIds with
    | [a, b] =>
      match [a, b].filterMap (fun i => state.currentSteps.find? (fun step => step.id == i)) with
      | [premiseA, premiseB] =>
        .ok { state with
          currentSteps := state.currentSteps ++
            [{ id := state.nextId,
               formula := .binary .and premiseA.formula premiseB.formula,
               rule := rule, justification := [a, b],
               depth := max premiseA.depth premiseB.depth }],
          nextId := state.nextId + 1 }
      | _ =>
        .error (.typeError "Cannot read properties of undefined (reading 'formula')")
    | _ => .error (.arityMismatch "CI (Conjunction Introduction) requires exactly two premises.")
  | .ceLeft | .ceRight =>
    match selectedStepIds with
    | [a] =>
      match state.currentSteps.find? (fun step => step.id == a) with
      | none => .error (.stepNotFound "Selected step was not found.")
      | some premise =>
        match premise.formula with
        | .binary .and l r =>
          .ok { state with
            currentSteps := state.currentSteps ++
              [{ id := state.nextId,
                 formula := if rule = .ceLeft then l else r,
                 rule := rule, justification := [a], depth := premise.depth }],
            nextId := state.nextId + 1 }
        | _ => .error (.patternMismatch "CE: The selected premise must be a Conjunction (A /\\ B).")
    | _ => .error (.arityMismatch "Conjunction Elimination requires exactly one premise.")
  | .dn =>
    match selectedStepIds with
    | [a] =>
      match state.currentSteps.find? (fun step => step.id == a) with
      | none => .error (.stepNotFound "Selected step was not found.")
      | some premise =>
        match premise.formula with
        | .not (.not inner) =>
          .ok { state with
            currentSteps := state.currentSteps ++
              [{ id := state.nextId, formula := inner,
                 rule := rule, justification := [a], depth := premise.depth }],
            nextId := state.nextId + 1 }
        | _ => .error (.patternMismatch "DN: The selected premise must be a Double Negation (¬¬A).")
    | _ => .error (.arityMismatch "DN (Double Negation) requires exactly one premise.")
  | .diLeft | .diRight =>
    match selectedStepIds with
    | [a] =>
      match newFormulaAst with
      | none => .error (.missingSecondaryFormula "DI requires a secondary formula (Q) to be provided.")
      | some q =>
        match state.currentSteps.find? (fun step => step.id == a) with
        | none => .error (.stepNotFound "Selected step was not found.")
        | some premise =>
          .ok { state with
            currentSteps := state.currentSteps ++
              [{ id := state.nextId,
                 formula := .binary .or
                   (if rule = .diLeft then premise.formula else q)
                   (if rule = .diLeft then q else premise.formula),
                 rule := rule, justification := [a], depth := premise.depth }],
            nextId := state.nextId + 1 }
    | _ => .error (.arityMismatch "DI requires exactly one premise (P).")
  | .ds =>
    match selectedStepIds with
    | [a, b] =>
      match [a, b].filterMap (fun i => state.currentSteps.find? (fun step => step.id == i)) with
      | [p1, p2] =>
        let cand : Option (Formula × Formula) :=
          match p1.formula with
          | .binary .or _ _ => some (p1.formula, p2.formula)
          | _ =>
            match p2.formula with
            | .binary .or _ _ => some (p2.formula, p1.formula)
            | _ => none
        match cand with
        | some (.binary _ dl dr, .not negated) =>
          if isFormulaEqual dl negated then
            .ok { state with
              currentSteps := state.currentSteps ++
                [{ id := state.nextId, formula := dr,
                   rule := rule, justification := [a, b],
                   depth := max p1.depth p2.depth }],
              nextId := state.nextId + 1 }
          else if isFormulaEqual dr negated then
            .ok { state with
              currentSteps := state.currentSteps ++
                [{ id := state.nextId, formula := dl,
                   rule := rule, justification := [a, b],
                   depth := max p1.depth p2.depth }],
              nextId := state.nextId + 1 }
          else .error (.patternMismatch "DS: Premises must be (A ∨ B) and (¬A or ¬B).")
        | _ => .error (.patternMismatch "DS: Premises must be (A ∨ B) and (¬A or ¬B).")
      | _ => .error (.stepNotFound "One or both selected steps were not found.")
    | _ => .error (.arityMismatch "DS (Disjunctive Syllogism) requires exactly two premises.")
  | .ii =>
    match selectedStepIds with
    | [a, b] =>
      match state.currentSteps.find? (fun s => s.id == a),
            state.currentSteps.find? (fun s => s.id == b) with
      | some stepA, some stepB =>
        let pr : ProofStep × ProofStep :=
          if stepA.rule = .assume ∧ stepB.rule ≠ .assume then (stepA, stepB)
          else if stepB.rule = .assume ∧ stepA.rule ≠ .assume then (stepB, stepA)
          else if stepA.id < stepB.id then (stepA, stepB)
          else (stepB, stepA)
        let assumptionStep := pr.1
        let conclusionStep := pr.2
        let newStep : ProofStep :=
          { id := state.nextId,
            formula := .binary .implies assumptionStep.formula conclusionStep.formula,
            rule := .ii,
            justification := [assumptionStep.id, conclusionStep.id],
            depth := 0,
            isDischarged := some false }
        let updatedSteps := state.currentSteps.map (fun step =>
          if step.id = assumptionStep.id then { step with isDischarged := some true } else step)
        .ok { state with
          currentSteps := updatedSteps ++ [newStep],
          nextId := state.nextId + 1 }
      | _, _ => .error (.stepNotFound "Selected steps not found.")
    | _ =>
      .error (.arityMismatch "II (Implication Introduction) requires exactly two steps: the Assumption and the Conclusion.")
  | .assume =>
    .error (.notImplemented "Rule ASSUME is not yet implemented.")

/-- Token kinds, from `type TokenType` in `types.ts`. -/
inductive TokenType where
  | proposition
  | implies
  | and
  | or
  | not
  | leftParen
  | rightParen
  | eof
deriving DecidableEq, Repr

/-- A token, from `type Token = { type: TokenType; value: string }`. -/
structure Token where
  type : TokenType
  value : String
deriving DecidableEq, Repr

/-- Lexer failures.  The source throws `Error` objects;
`invalidCharacter` is the "Invalid character" message thrown for a lone `-`,
`unrecognizedCharacter` the "Unrecognized character" message of the final
catch-all. -/
inductive LexError where
  | invalidCharacter (c : Char) (pos : Nat)
  | unrecognizedCharacter (c : Char) (pos : Nat)
  | outOfFuel
deriving DecidableEq, Repr

/-- The whitespace class of the JavaScript regular expression `/\\s/`:
space, tab, line feed, vertical tab, form feed, carriage return, no-break
space (U+00A0), Ogham space mark (U+1680), the U+2000-U+200A range, line and
paragraph separators (U+2028, U+2029), narrow no-break space (U+202F),
medium mathematical space (U+205F), ideographic space (U+3000) and the
byte-order mark (U+FEFF).  Stated on code points for fast reduction. -/
def jsWhitespace (c : Char) : Bool :=
  c.toNat = 32 || c.toNat = 9 || c.toNat = 10 || c.toNat = 11 ||
  c.toNat = 12 || c.toNat = 13 || c.toNat = 160 || c.toNat = 5760 ||
  (8192 <= c.toNat && c.toNat <= 8202) ||
  c.toNat = 8232 || c.toNat = 8233 || c.toNat = 8239 || c.toNat = 8287 ||
  c.toNat = 12288 || c.toNat = 65279

/-- The outcome of one iteration of the lexer loop for the current
character: skip it (whitespace), emit a one-character token, emit the
two-character `->` IMPLIES token (consuming the lookahead `>` as well), or
throw. -/
inductive LexOut where
  | skip
  | tok (t : Token)
  | tokImplies
  | fail (e : LexError)
deriving DecidableEq, Repr

/-- The body of the `while` loop of `tokenize` in `dist/logics/engine.js`,
deciding what to do with the character `c` at position `pos`; `next` is the
lookahead `input[position + 1]` (`none` at the end of the input), consulted
only by the `-` case. -/
def lexStep (c : Char) (next : Option Char) (pos : Nat) : LexOut :=
  if jsWhitespace c then .skip
  else if c = '(' then .tok { type := .leftParen, value := "(" }
  else if c = ')' then .tok { type := .rightParen, value := ")" }
  else if c = '~' || c = '¬' then .tok { type := .not, value := c.toString }
  else if c = '∧' then .tok { type := .and, value := "∧" }
  else if c = '∨' then .tok { type := .or, value := "∨" }
  else if c = '-' then
    if next = some '>' then .tokImplies
    else .fail (.invalidCharacter c pos)
  else if c = '→' then .tok { type := .implies, value := "→" }
  else if 65 ≤ c.toNat && c.toNat ≤ 90 then .tok { type := .proposition, value := c.toString }
  else .fail (.unrecognizedCharacter c pos)

/-- Case analysis on a `LexOut` (an eliminator written as a plain function,
so that the recursive equations of `tokenizeAux` stay small). -/
def lexOutElim (o : LexOut) (onSkip : α) (onTok : Token → α) (onImplies : α)
    (onFail : LexError → α) : α :=
  match o with
  | .skip => onSkip
  | .tok t => onTok t
  | .tokImplies => onImplies
  | .fail e => onFail e

/-- The `while` loop of `tokenize`, one `lexStep` per iteration; `pos` is
the source `position` cursor, used only in error messages.  The first
argument is recursion fuel, an artifact of the embedding: every loop
iteration of the source consumes at least one character, so `tokenize`
below supplies enough fuel for `.error .outOfFuel` to be unreachable. -/
def tokenizeAux : Nat → List Char → Nat → Except LexError (List Token)
  | 0, _, _ => .error .outOfFuel
  | _ + 1, [], _ => .ok [{ type := .eof, value := "" }]
  | fuel + 1, c :: rest, pos =>
    lexOutElim (lexStep c rest.head? pos)
      (tokenizeAux fuel rest (pos + 1))
      (fun t => (fun ts => t :: ts) <$> tokenizeAux fuel rest (pos + 1))
      ((fun ts => { type := .implies, value := "->" } :: ts) <$> tokenizeAux fuel rest.tail (pos + 2))
      (fun e => .error e)

/-- The lexer, from `tokenize` in `dist/logics/engine.js`: scan the whole
input and terminate the token list with one EOF token. -/
def tokenize (input : String) : Except LexError (List Token) :=
  tokenizeAux (input.data.length + 1) input.data 0

/-- Parser failures.  `missingCloseParen` is the "Expected ')' but found"
message, `unexpectedToken` the "Unexpected token:" message,
`trailingInput` the "Unexpected token at end:" message.  `outOfFuel` and
`internalError` are artifacts of the embedding: `outOfFuel` is returned when
the recursion-depth fuel runs out (the source recursion always terminates,
so with the fuel chosen in `parse` it is unreachable), `internalError` models
reading past a token list that does not end in EOF (unreachable for the
lexer's output). -/
inductive ParseError where
  | unexpectedToken (v : String)
  | missingCloseParen (v : String)
  | trailingInput (v : String)
  | outOfFuel
  | internalError
deriving DecidableEq, Repr

mutual

/-- `parseImplication` from `parse` in `dist/logics/engine.js`:
parse a disjunction, then handle the right-recursive implication loop. -/
def parseImplicationF : Nat → List Token → Except ParseError (Formula × List Token)
  | 0, _ => .error .outOfFuel
  | fuel + 1, ts =>
    match parseDisjunctionF fuel ts with
    | .error e => .error e
    | .ok (left, ts1) => parseImpLoopF fuel left ts1

/-- The `while (peek().type === 'IMPLIES')` loop of `parseImplication`:
consume the arrow, recurse into `parseImplication` for the right side
(right associativity), and fold into a BINARY IMPLIES node. -/
def parseImpLoopF : Nat → Formula → List Token → Except ParseError (Formula × List Token)
  | 0, _, _ => .error .outOfFuel
  | fuel + 1, left, ts =>
    match ts with
    | { type := .implies, value := _ } :: rest =>
      match parseImplicationF fuel rest with
      | .error e => .error e
      | .ok (right, ts2) => parseImpLoopF fuel (.binary .implies left right) ts2
    | _ => .ok (left, ts)

/-- `parseDisjunction`: a left-associative chain of OR over conjunctions. -/
def parseDisjunctionF : Nat → List Token → Except ParseError (Formula × List Token)
  | 0, _ => .error .outOfFuel
  | fuel + 1, ts =>
    match parseConjunctionF fuel ts with
    | .error e => .error e
    | .ok (left, ts1) => parseOrLoopF fuel left ts1

/-- The `while (peek().type === 'OR')` loop of `parseDisjunction`. -/
def parseOrLoopF : Nat → Formula → List Token → Except ParseError (Formula × List Token)
  | 0, _, _ => .error .outOfFuel
  | fuel + 1, left, ts =>
    match ts with
    | { type := .or, value := _ } :: rest =>
      match parseConjunctionF fuel rest with
      | .error e => .error e
      | .ok (right, ts2) => parseOrLoopF fuel (.binary .or left right) ts2
    | _ => .ok (left, ts)

/-- `parseConjunction`: a left-associative chain of AND over unary
operands. -/
def parseConjunctionF : Nat → List Token → Except ParseError (Formula × List Token)
  | 0, _ => .error .outOfFuel
  | fuel + 1, ts =>
    match parseUnaryF fuel ts with
    | .error e => .error e
    | .ok (left, ts1) => parseAndLoopF fuel left ts1

/-- The `while (peek().type === 'AND')` loop of `parseConjunction`. -/
def parseAndLoopF : Nat → Formula → List Token → Except ParseError (Formula × List Token)
  | 0, _, _ => .error .outOfFuel
  | fuel + 1, left, ts =>
    match ts with
    | { type := .and, value := _ } :: rest =>
      match parseUnaryF fuel rest with
      | .error e => .error e
      | .ok (right, ts2) => parseAndLoopF fuel (.binary .and left right) ts2
    | _ => .ok (left, ts)

/-- `parseUnary`: prefix NOT (right-recursive), a parenthesized
sub-expression (recurse into `parseImplication`, require `)`), or a bare
proposition. -/
def parseUnaryF : Nat → List Token → Except ParseError (Formula × List Token)
  | 0, _ => .error .outOfFuel
  | fuel + 1, ts =>
    match ts with
    | { type := .not, value := _ } :: rest =>
      match parseUnaryF fuel rest with
      | .error e => .error e
      | .ok (inner, ts1) => .ok (.not inner, ts1)
    | { type := .leftParen, value := _ } :: rest =>
      match parseImplicationF fuel rest with
      | .error e => .error e
      | .ok (inner, ts1) =>
        match ts1 with
        | { type := .rightParen, value := _ } :: ts2 => .ok (inner, ts2)
        | t :: _ => .error (.missingCloseParen t.value)
        | [] => .error .internalError
    | { type := .proposition, value := v } :: rest => .ok (.atom v, rest)
    | t :: _ => .error (.unexpectedToken t.value)
    | [] => .error .internalError

end

/-- `parse` from `dist/logics/engine.js`: run `parseImplication` on the whole
token list, then require the next token to be EOF.  The fuel bound
`4 * ts.length + 8` over-approximates the recursion depth of the source
(every cycle through the mutually recursive parsers consumes at least one
token). -/
def parse (ts : List Token) : Except ParseError Formula :=
  match parseImplicationF (4 * ts.length + 8) ts with
  | .error e => .error e
  | .ok (f, rest) =>
    match rest with
    | { type := .eof, value := _ } :: _ => .ok f
    | t :: _ => .error (.trailingInput t.value)
    | [] => .error .internalError

/-- The composed front-end operation `parseFormula` of the spec's external
interface: tokenize, then parse. -/
def parseFormula (source : String) : Except (Sum LexError ParseError) Formula :=
  match tokenize source with
  | .error e => .error (.inl e)
  | .ok ts =>
    match parse ts with
    | .error e => .error (.inr e)
    | .ok f => .ok f

/-- A small concrete proof state (the frontend's initial state: step 1 is
`P → Q`, step 2 is `P`, both premises tagged ASSUME). -/
def exampleState : ProofState :=
  { premises := [], goal := .atom "Q", nextId := 3,
    currentSteps :=
      [{ id := 1, formula := .binary .implies (.atom "P") (.atom "Q"),
         rule := .assume, justification := [], depth := 0 },
       { id := 2, formula := .atom "P",
         rule := .assume, justification := [], depth := 0 }] }

/-- C1: the claim that every rule reports a StepNotFound-style error for an
unresolved selected id fails for CI.  With the arity satisfied and id 99
absent from `currentSteps`, the CI branch (which, unlike MP and DS, has no
`premises.length !== 2` check) reads a property of `undefined` and fails
with a TypeError, not a StepNotFound error. -/
theorem applyRule_ci_missing_step_typeError :
    applyRule exampleState .ci [1, 99] none =
      .error (.typeError "Cannot read properties of undefined (reading 'formula')") := rfl

/-- C10: for every state, id list and optional secondary formula, `applyRule`
with rule ASSUME reaches no rule branch and fails with the final
"not yet implemented" error; the engine never creates ASSUME steps. -/
theorem applyRule_assume_not_implemented (state : ProofState)
    (selectedStepIds : List Nat) (newFormulaAst : Option Formula) :
    applyRule state .assume selectedStepIds newFormulaAst =
      .error (.notImplemented "Rule ASSUME is not yet implemented.") := rfl

/-- C4: `tokenize` composed with `parse` respects the precedence ladder and
associativity: `∧` binds tighter than `∨`, `->` is right-associative, and
`~~P` nests as `Not (Not (Atom P))`. -/
theorem parse_precedence_and_associativity :
    parseFormula "P ∨ Q ∧ R" =
      .ok (.binary .or (.atom "P") (.binary .and (.atom "Q") (.atom "R"))) ∧
    parseFormula "P -> Q -> R" =
      .ok (.binary .implies (.atom "P") (.binary .implies (.atom "Q") (.atom "R"))) ∧
    parseFormula "~~P" = .ok (.not (.not (.atom "P"))) :=
  ⟨rfl, rfl, rfl⟩

/-- C6: the lexer turns the two-character sequence `->` and the single
character `→` into an IMPLIES token, and any `-` not immediately followed by
`>` (including a `-` at the end of the input) is a lex error — a lone `-` is
never skipped or tokenized as something else.  The statements about
`tokenizeAux` hold at every position of the left-to-right scan (the `fuel`
argument is the embedding's recursion fuel); the last two conjuncts
instantiate them through `tokenize` on whole strings. -/
theorem tokenize_dash_handling :
    (∀ (fuel : Nat) (rest : List Char) (pos : Nat),
        tokenizeAux (fuel + 1) ('-' :: '>' :: rest) pos =
          (fun ts => { type := .implies, value := "->" } :: ts) <$> tokenizeAux fuel rest (pos + 2)) ∧
    (∀ (fuel : Nat) (rest : List Char) (pos : Nat),
        tokenizeAux (fuel + 1) ('→' :: rest) pos =
          (fun ts => { type := .implies, value := "→" } :: ts) <$> tokenizeAux fuel rest (pos + 1)) ∧
    (∀ (fuel : Nat) (c : Char) (rest : List Char) (pos : Nat), c ≠ '>' →
        tokenizeAux (fuel + 1) ('-' :: c :: rest) pos = .error (.invalidCharacter '-' pos)) ∧
    (∀ (fuel : Nat) (pos : Nat),
        tokenizeAux (fuel + 1) ['-'] pos = .error (.invalidCharacter '-' pos)) ∧
    tokenize "->" = .ok [{ type := .implies, value := "->" }, { type := .eof, value := "" }] ∧
    tokenize "A-B" = .error (.invalidCharacter '-' 1) := by
  refine ⟨?_, ?_, ?_, ?_, rfl, rfl⟩
  · intro fuel rest pos
    rw [tokenizeAux]
    rw [show lexStep '-' ('>' :: rest).head? pos = .tokImplies from rfl]
    rfl
  · intro fuel rest pos
    rw [tokenizeAux]
    rw [show lexStep '→' rest.head? pos = .tok { type := .implies, value := "→" } from rfl]
    rfl
  · intro fuel c rest pos h
    rw [tokenizeAux]
    have hs : lexStep '-' (c :: rest).head? pos =
        if some c = some '>' then .tokImplies else .fail (.invalidCharacter '-' pos) := rfl
    rw [hs, if_neg (by simpa using h)]
    rfl
  · intro fuel pos
    rw [tokenizeAux]
    have hs : lexStep '-' (List.head? []) pos =
        if (none : Option Char) = some '>' then .tokImplies
        else .fail (.invalidCharacter '-' pos) := rfl
    rw [hs, if_neg (by simp)]
    rfl

/-- Witness for C6: a concrete lone `-` inside an input is reported as an
invalid character at its position. -/
theorem tokenize_dash_handling_witness :
    tokenizeAux 1 ['-', 'x', 'Q'] 5 = .error (.invalidCharacter '-' 5) :=
  tokenize_dash_handling.2.2.1 0 'x' ['Q'] 5 (by decide)
/-- Value of a lower-case hexadecimal digit character (a proof device used
to invert `hexDigit`; `0` on other characters). -/
def hexV (c : Char) : Nat :=
  if c = '0' then 0 else if c = '1' then 1 else if c = '2' then 2
  else if c = '3' then 3 else if c = '4' then 4 else if c = '5' then 5
  else if c = '6' then 6 else if c = '7' then 7 else if c = '8' then 8
  else if c = '9' then 9 else if c = 'a' then 10 else if c = 'b' then 11
  else if c = 'c' then 12 else if c = 'd' then 13 else if c = 'e' then 14
  else if c = 'f' then 15 else 0

lemma hexV_hexDigit : ∀ n, n < 16 → hexV (hexDigit n) = n := by decide

/-- Left inverse of `escChar` on its outputs: reads one (possibly escaped)
character off the front of a JSON-escaped character list.  A proof device
only; it appears in no theorem statement. -/
def unescDecode (l : List Char) : Option (Char × List Char) :=
  match l with
  | [] => none
  | c :: rest =>
    if c = '\\' then
      match rest with
      | [] => none
      | e :: rest2 =>
        if e = 'u' then
          match rest2 with
          | _ :: _ :: h3 :: h4 :: r3 => some (Char.ofNat (hexV h3 * 16 + hexV h4), r3)
          | _ => none
        else if e = '"' then some ('"', rest2)
        else if e = '\\' then some ('\\', rest2)
        else if e = 'b' then some ('\x08', rest2)
        else if e = 'f' then some ('\x0c', rest2)
        else if e = 'n' then some ('\n', rest2)
        else if e = 'r' then some ('\r', rest2)
        else if e = 't' then some ('\t', rest2)
        else none
    else if c = '"' then none
    else some (c, rest)

lemma unescDecode_escChar (c : Char) (r : List Char) :
    unescDecode (escChar c ++ r) = some (c, r) := by
  unfold escChar
  split_ifs with h1 h2 h3 h4 h5 h6 h7 h8
  · subst h1; rfl
  · subst h2; rfl
  · subst h3; rfl
  · subst h4; rfl
  · subst h5; rfl
  · subst h6; rfl
  · subst h7; rfl
  · show unescDecode ('\\' :: 'u' :: '0' :: '0' :: hexDigit (c.toNat / 16) :: hexDigit (c.toNat % 16) :: r) = some (c, r)
    rw [show unescDecode ('\\' :: 'u' :: '0' :: '0' :: hexDigit (c.toNat / 16) :: hexDigit (c.toNat % 16) :: r) =
      some (Char.ofNat (hexV (hexDigit (c.toNat / 16)) * 16 + hexV (hexDigit (c.toNat % 16))), r) from rfl]
    rw [hexV_hexDigit _ (by omega), hexV_hexDigit _ (by omega)]
    rw [show c.toNat / 16 * 16 + c.toNat % 16 = c.toNat from by omega, Char.ofNat_toNat]
  · show unescDecode (c :: r) = some (c, r)
    simp only [unescDecode]
    rw [if_neg h2, if_neg h1]

lemma escChar_det {c1 c2 : Char} {x y : List Char}
    (h : escChar c1 ++ x = escChar c2 ++ y) : c1 = c2 ∧ x = y := by
  have h2 := congrArg unescDecode h
  rw [unescDecode_escChar, unescDecode_escChar] at h2
  simpa using h2
lemma escChar_head_ne_quote (c : Char) :
    ∃ d t, escChar c = d :: t ∧ d ≠ '"' := by
  unfold escChar
  split_ifs with h1 h2 h3 h4 h5 h6 h7 h8
  · exact ⟨'\\', _, rfl, by decide⟩
  · exact ⟨'\\', _, rfl, by decide⟩
  · exact ⟨'\\', _, rfl, by decide⟩
  · exact ⟨'\\', _, rfl, by decide⟩
  · exact ⟨'\\', _, rfl, by decide⟩
  · exact ⟨'\\', _, rfl, by decide⟩
  · exact ⟨'\\', _, rfl, by decide⟩
  · exact ⟨'\\', _, rfl, by decide⟩
  · exact ⟨c, [], rfl, h1⟩

lemma escapeL_cancel :
    ∀ n1 n2 x y : List Char,
      escapeL n1 ++ '"' :: x = escapeL n2 ++ '"' :: y → n1 = n2 ∧ x = y := by
  intro n1
  induction n1 with
  | nil =>
    intro n2 x y h
    cases n2 with
    | nil => simpa using h
    | cons c2 t2 =>
      obtain ⟨d, t, hd, hq⟩ := escChar_head_ne_quote c2
      simp only [escapeL] at h
      rw [hd] at h
      simp only [List.nil_append, List.cons_append, List.cons.injEq] at h
      exact absurd h.1.symm hq
  | cons c1 t1 ih =>
    intro n2 x y h
    cases n2 with
    | nil =>
      obtain ⟨d, t, hd, hq⟩ := escChar_head_ne_quote c1
      simp only [escapeL] at h
      rw [hd] at h
      simp only [List.nil_append, List.cons_append, List.cons.injEq] at h
      exact absurd h.1 hq
    | cons c2 t2 =>
      simp only [escapeL] at h
      rw [List.append_assoc, List.append_assoc] at h
      obtain ⟨hc, ht⟩ := escChar_det h
      obtain ⟨ht2, hx⟩ := ih t2 x y ht
      exact ⟨by rw [hc, ht2], hx⟩
/-- Two strings with the same character list are equal. -/
lemma string_data_inj {n1 n2 : String} (h : n1.data = n2.data) : n1 = n2 := by
  cases n1; cases n2; exact congrArg String.mk h

/-- The tenth character of a serialized formula is the first character of its
JSON `type` tag, which discriminates the three constructors. -/
lemma serialize_head (f : Formula) (s : List Char) :
    (serialize f ++ s)[9]? =
      some (match f with | .atom _ => 'A' | .not _ => 'N' | .binary _ _ _ => 'B') := by
  cases f <;> rfl

/-- The first character of a serialized connective name discriminates the
four connectives. -/
lemma connChars_head (k : Connective) (x : List Char) :
    (connChars k ++ x).head? =
      some (match k with | .not => 'N' | .and => 'A' | .or => 'O' | .implies => 'I') := by
  cases k <;> rfl

lemma connChars_det {k1 k2 : Connective} {x y : List Char}
    (h : connChars k1 ++ x = connChars k2 ++ y) : k1 = k2 ∧ x = y := by
  have hh := congrArg List.head? h
  rw [connChars_head, connChars_head] at hh
  cases k1 <;> cases k2 <;>
    first
      | exact ⟨rfl, List.append_cancel_left h⟩
      | exact absurd (Option.some.inj hh) (by decide)

lemma serialize_cancel :
    ∀ f1 f2 : Formula, ∀ r1 r2 : List Char,
      serialize f1 ++ r1 = serialize f2 ++ r2 → f1 = f2 ∧ r1 = r2 := by
  intro f1
  induction f1 with
  | atom n1 =>
    intro f2 r1 r2 h
    cases f2 with
    | atom n2 =>
      simp only [serialize, List.append_assoc, List.cons_append, List.nil_append,
        List.cons.injEq, true_and] at h
      obtain ⟨hn, ht⟩ := escapeL_cancel _ _ _ _ h
      simp only [List.cons.injEq, true_and] at ht
      exact ⟨congrArg Formula.atom (string_data_inj hn), ht⟩
    | not g =>
      have := congrArg (fun l => l[9]?) h
      simp only [serialize_head, Option.some.injEq] at this
      exact absurd this (by decide)
    | binary k2 l2 q2 =>
      have := congrArg (fun l => l[9]?) h
      simp only [serialize_head, Option.some.injEq] at this
      exact absurd this (by decide)
  | not g1 ih =>
    intro f2 r1 r2 h
    cases f2 with
    | atom n2 =>
      have := congrArg (fun l => l[9]?) h
      simp only [serialize_head, Option.some.injEq] at this
      exact absurd this (by decide)
    | not g2 =>
      simp only [serialize, List.append_assoc, List.cons_append, List.nil_append,
        List.cons.injEq, true_and] at h
      obtain ⟨hg, ht⟩ := ih g2 _ _ h
      simp only [List.cons.injEq, true_and] at ht
      exact ⟨congrArg Formula.not hg, ht⟩
    | binary k2 l2 q2 =>
      have := congrArg (fun l => l[9]?) h
      simp only [serialize_head, Option.some.injEq] at this
      exact absurd this (by decide)
  | binary k1 l1 q1 ihl ihq =>
    intro f2 r1 r2 h
    cases f2 with
    | atom n2 =>
      have := congrArg (fun l => l[9]?) h
      simp only [serialize_head, Option.some.injEq] at this
      exact absurd this (by decide)
    | not g2 =>
      have := congrArg (fun l => l[9]?) h
      simp only [serialize_head, Option.some.injEq] at this
      exact absurd this (by decide)
    | binary k2 l2 q2 =>
      simp only [serialize, List.append_assoc, List.cons_append, List.nil_append,
        List.cons.injEq, true_and] at h
      obtain ⟨hk, h3⟩ := connChars_det h
      simp only [List.cons.injEq, true_and] at h3
      obtain ⟨hl, h5⟩ := ihl l2 _ _ h3
      simp only [List.cons.injEq, true_and] at h5
      obtain ⟨hq, h7⟩ := ihq q2 _ _ h5
      simp only [List.cons.injEq, true_and] at h7
      exact ⟨by rw [hk, hl, hq], h7⟩
/-- `serialize` is injective. -/
lemma serialize_inj {f1 f2 : Formula} (h : serialize f1 = serialize f2) : f1 = f2 :=
  (serialize_cancel f1 f2 [] [] (by simpa using h)).1

/-- `isFormulaEqual` decides structural equality of formulas. -/
lemma isFormulaEqual_eq_decide (f1 f2 : Formula) :
    isFormulaEqual f1 f2 = decide (f1 = f2) := by
  by_cases h : f1 = f2
  · subst h; simp [isFormulaEqual]
  · have hne : jsonStringify f1 ≠ jsonStringify f2 := by
      intro he
      exact h (serialize_inj (congrArg String.data he))
    simp [isFormulaEqual, h, hne]

/-- `structEq` decides structural equality of formulas. -/
lemma structEq_iff : ∀ f1 f2 : Formula, structEq f1 f2 = true ↔ f1 = f2 := by
  intro f1
  induction f1 with
  | atom n1 => intro f2; cases f2 <;> simp [structEq]
  | not g ih => intro f2; cases f2 <;> simp [structEq, ih]
  | binary k l q ihl ihq =>
    intro f2; cases f2 <;> simp [structEq, ihl, ihq, and_assoc]

/-- C9: the serialization-based `isFormulaEqual` returns `true` exactly on
structurally equal formulas, and is extensionally equal to the reference
recursive structural-equality function `structEq` (tag and all fields
compared recursively). -/
theorem isFormulaEqual_matches_structEq (f1 f2 : Formula) :
    (isFormulaEqual f1 f2 = true ↔ f1 = f2) ∧ isFormulaEqual f1 f2 = structEq f1 f2 := by
  have h1 : isFormulaEqual f1 f2 = true ↔ f1 = f2 := by
    rw [isFormulaEqual_eq_decide]
    simp
  exact ⟨h1, by rw [Bool.eq_iff_iff]; exact h1.trans (structEq_iff f1 f2).symm⟩
/-- The assumption chosen by II, written from the claim's words: if exactly
one of the two steps is tagged ASSUME, that step; otherwise the step with
the smaller id. -/
def iiAssumption (p q : ProofStep) : ProofStep :=
  if p.rule = .assume ∧ q.rule ≠ .assume then p
  else if q.rule = .assume ∧ p.rule ≠ .assume then q
  else if p.id < q.id then p else q

/-- The conclusion chosen by II: the selected step that is not the
assumption. -/
def iiConclusion (p q : ProofStep) : ProofStep :=
  if p.rule = .assume ∧ q.rule ≠ .assume then q
  else if q.rule = .assume ∧ p.rule ≠ .assume then p
  else if p.id < q.id then q else p

/-- C2: for two distinct resolvable selected ids, II chooses the assumption
per the decision order (the unique ASSUME-tagged step if exactly one is
tagged ASSUME, else the smaller id), flips that step's copy `isDischarged`
to `true` leaving every other existing step unchanged, and appends one step
with formula `Implies(assumption, conclusion)`, justification
`[assumptionId, conclusionId]` and depth 0. -/
theorem applyRule_ii_spec (state : ProofState) (i j : Nat) (p q : ProofStep)
    (_hij : i ≠ j)
    (hp : state.currentSteps.find? (fun s => s.id == i) = some p)
    (hq : state.currentSteps.find? (fun s => s.id == j) = some q) :
    applyRule state .ii [i, j] none = .ok
      { state with
        currentSteps :=
          (state.currentSteps.map (fun s =>
            if s.id = (iiAssumption p q).id then { s with isDischarged := some true } else s))
          ++ [{ id := state.nextId,
                formula := .binary .implies (iiAssumption p q).formula (iiConclusion p q).formula,
                rule := .ii,
                justification := [(iiAssumption p q).id, (iiConclusion p q).id],
                depth := 0,
                isDischarged := some false }],
        nextId := state.nextId + 1 } := by
  simp only [applyRule, hp, hq]
  unfold iiAssumption iiConclusion
  split_ifs <;> rfl

/-- Witness for C2: applying II to the two ASSUME premises of
`exampleState` (neither is uniquely tagged, so the smaller id 1 is the
assumption) discharges step 1 and appends `(P → Q) → P`. -/
theorem applyRule_ii_spec_witness :
    applyRule exampleState .ii [1, 2] none = .ok
      { premises := [], goal := .atom "Q",
        currentSteps :=
          [{ id := 1, formula := .binary .implies (.atom "P") (.atom "Q"), rule := .assume,
             justification := [], depth := 0, isDischarged := some true },
           { id := 2, formula := .atom "P", rule := .assume, justification := [], depth := 0 },
           { id := 3,
             formula := .binary .implies (.binary .implies (.atom "P") (.atom "Q")) (.atom "P"),
             rule := .ii, justification := [1, 2], depth := 0, isDischarged := some false }],
        nextId := 4 } :=
  applyRule_ii_spec exampleState 1 2
    { id := 1, formula := .binary .implies (.atom "P") (.atom "Q"), rule := .assume,
      justification := [], depth := 0 }
    { id := 2, formula := .atom "P", rule := .assume, justification := [], depth := 0 }
    (by decide) rfl rfl
/-- The conclusion DS derives from a disjunction `d` and a negation `n`,
written from the claim's words: when `d = Or(A,B)` and `n = Not(X)`, the
disjunct not matching `X` (`B` when `X` equals `A`, else `A` when `X`
equals `B`); `none` when nothing matches. -/
def dsConclusion (d n : Formula) : Option Formula :=
  match d, n with
  | .binary .or a b, .not x => if x = a then some b else if x = b then some a else none
  | _, _ => none

/-- The claim's success condition for DS on the two selected formulas,
trying both assignments of disjunction and negation. -/
def dsExpected (f g : Formula) : Option Formula :=
  match dsConclusion f g with
  | some c => some c
  | none => dsConclusion g f

/-- C5: for two resolvable selected ids, DS succeeds exactly when one
step's formula is `Or(A,B)` and the other's is `Not(X)` with `X` equal to
`A` or `B` (both assignments tried); on success it appends the other
disjunct with depth `max` of the premise depths, otherwise it fails with
the PatternMismatch error. -/
theorem applyRule_ds_spec (state : ProofState) (i j : Nat) (p q : ProofStep)
    (hp : state.currentSteps.find? (fun s => s.id == i) = some p)
    (hq : state.currentSteps.find? (fun s => s.id == j) = some q) :
    applyRule state .ds [i, j] none =
      match dsExpected p.formula q.formula with
      | some c => .ok { state with
          currentSteps := state.currentSteps ++
            [{ id := state.nextId, formula := c, rule := .ds, justification := [i, j],
               depth := max p.depth q.depth }],
          nextId := state.nextId + 1 }
      | none => .error (.patternMismatch "DS: Premises must be (A ∨ B) and (¬A or ¬B).") := by
  simp only [applyRule, List.filterMap_cons, List.filterMap_nil, hp, hq]
  rcases p with ⟨pid, pf, prule, pj, pd, pdis⟩
  rcases q with ⟨qid, qf, qrule, qj, qd, qdis⟩
  rcases pf with n | f | ⟨kp, a, b⟩ <;> rcases qf with m | g | ⟨kq, c, d⟩
  all_goals try cases kp
  all_goals try cases kq
  all_goals simp_all [dsExpected, dsConclusion, isFormulaEqual_eq_decide]
  all_goals split_ifs <;> subst_vars <;> first | rfl | exact absurd rfl (by assumption)

/-- A concrete proof state for DS: step 1 is `P ∨ Q`, step 2 is `¬P`. -/
def dsExampleState : ProofState :=
  { premises := [], goal := .atom "Q", nextId := 3,
    currentSteps :=
      [{ id := 1, formula := .binary .or (.atom "P") (.atom "Q"),
         rule := .assume, justification := [], depth := 0 },
       { id := 2, formula := .not (.atom "P"),
         rule := .assume, justification := [], depth := 0 }] }

/-- Witness for C5: from `P ∨ Q` and `¬P`, DS derives `Q`. -/
theorem applyRule_ds_spec_witness :
    applyRule dsExampleState .ds [1, 2] none = .ok
      { premises := [], goal := .atom "Q",
        currentSteps :=
          [{ id := 1, formula := .binary .or (.atom "P") (.atom "Q"),
             rule := .assume, justification := [], depth := 0 },
           { id := 2, formula := .not (.atom "P"),
             rule := .assume, justification := [], depth := 0 },
           { id := 3, formula := .atom "Q", rule := .ds, justification := [1, 2], depth := 0 }],
        nextId := 4 } :=
  applyRule_ds_spec dsExampleState 1 2
    { id := 1, formula := .binary .or (.atom "P") (.atom "Q"),
      rule := .assume, justification := [], depth := 0 }
    { id := 2, formula := .not (.atom "P"),
      rule := .assume, justification := [], depth := 0 }
    rfl rfl
/-- Number of nodes of a formula tree. -/
def Formula.size : Formula → Nat
  | .atom _ => 1
  | .not f => f.size + 1
  | .binary _ l r => l.size + r.size + 1

lemma Formula.size_pos : ∀ f : Formula, 0 < f.size
  | .atom _ => by simp [Formula.size]
  | .not f => by simp [Formula.size]
  | .binary _ _ _ => by simp [Formula.size]

/-- One half of an MP call: under either assignment of the implication and
its antecedent, the call with ids in the given order succeeds and appends
the consequent. -/
lemma applyRule_mp_ok (state : ProofState) (i j : Nat) (p q : ProofStep)
    (hp : state.currentSteps.find? (fun s => s.id == i) = some p)
    (hq : state.currentSteps.find? (fun s => s.id == j) = some q)
    (A B : Formula)
    (hpat : (p.formula = .binary .implies A B ∧ q.formula = A) ∨
            (q.formula = .binary .implies A B ∧ p.formula = A)) :
    applyRule state .mp [i, j] none = .ok
      { state with
        currentSteps := state.currentSteps ++
          [{ id := state.nextId, formula := B, rule := .mp, justification := [i, j],
             depth := max p.depth q.depth }],
        nextId := state.nextId + 1 } := by
  simp only [applyRule, List.filterMap_cons, List.filterMap_nil, hp, hq]
  rcases hpat with ⟨h1, h2⟩ | ⟨h1, h2⟩
  · simp [h1, h2, isFormulaEqual_eq_decide]
  · rw [h1, h2]
    rcases hA : A with n | f | ⟨k, l, r⟩
    · simp [isFormulaEqual_eq_decide]
    · simp [isFormulaEqual_eq_decide]
    · cases k
      case implies =>
        have hne : l ≠ .binary .implies (.binary .implies l r) B := by
          intro he
          have h5 := congrArg Formula.size he
          simp [Formula.size] at h5
          omega
        simp [isFormulaEqual_eq_decide, hne]
      all_goals simp [isFormulaEqual_eq_decide]

/-- The other half of MP: when neither assignment matches, the call fails
with the PatternMismatch error. -/
lemma applyRule_mp_fail (state : ProofState) (i j : Nat) (p q : ProofStep)
    (hp : state.currentSteps.find? (fun s => s.id == i) = some p)
    (hq : state.currentSteps.find? (fun s => s.id == j) = some q)
    (hnone : ∀ A B : Formula,
      ¬((p.formula = .binary .implies A B ∧ q.formula = A) ∨
        (q.formula = .binary .implies A B ∧ p.formula = A))) :
    applyRule state .mp [i, j] none =
      .error (.patternMismatch "MP: The selected premises do not match the form (A -> B) and A.") := by
  have hno1 : ∀ l r, p.formula = .binary .implies l r → ¬(q.formula = l) :=
    fun l r hf hq' => hnone l r (Or.inl ⟨hf, hq'⟩)
  have hno2 : ∀ l r, q.formula = .binary .implies l r → ¬(p.formula = l) :=
    fun l r hf hp' => hnone l r (Or.inr ⟨hf, hp'⟩)
  simp only [applyRule, List.filterMap_cons, List.filterMap_nil, hp, hq]
  rcases hpf : p.formula with n | f | ⟨kp, lp, rp⟩ <;>
    rcases hqf : q.formula with m | g | ⟨kq, lq, rq⟩
  all_goals try cases kp
  all_goals try cases kq
  all_goals simp only [isFormulaEqual_eq_decide]
  all_goals split_ifs with hs1 hs2
  all_goals try rfl
  all_goals first
    | exact hno1 _ _ hpf (hqf.trans (of_decide_eq_true hs1).symm)
    | exact hno2 _ _ hqf (hpf.trans (of_decide_eq_true hs1).symm)
    | exact hno2 _ _ hqf (hpf.trans (of_decide_eq_true hs2).symm)

/-- C3: for two resolvable selected ids, if one step's formula is
`Implies(A,B)` and the other's equals `A`, MP succeeds and appends `B` with
depth `max` of the premise depths; swapping the two ids yields the same
appended formula `B` (order-independence); and if neither ordering matches,
MP fails with the PatternMismatch error. -/
theorem applyRule_mp_spec (state : ProofState) (i j : Nat) (p q : ProofStep)
    (hp : state.currentSteps.find? (fun s => s.id == i) = some p)
    (hq : state.currentSteps.find? (fun s => s.id == j) = some q) :
    (∀ A B : Formula,
      (p.formula = .binary .implies A B ∧ q.formula = A) ∨
        (q.formula = .binary .implies A B ∧ p.formula = A) →
      applyRule state .mp [i, j] none = .ok
        { state with
          currentSteps := state.currentSteps ++
            [{ id := state.nextId, formula := B, rule := .mp, justification := [i, j],
               depth := max p.depth q.depth }],
          nextId := state.nextId + 1 } ∧
      applyRule state .mp [j, i] none = .ok
        { state with
          currentSteps := state.currentSteps ++
            [{ id := state.nextId, formula := B, rule := .mp, justification := [j, i],
               depth := max q.depth p.depth }],
          nextId := state.nextId + 1 }) ∧
    ((∀ A B : Formula,
      ¬((p.formula = .binary .implies A B ∧ q.formula = A) ∨
        (q.formula = .binary .implies A B ∧ p.formula = A))) →
      applyRule state .mp [i, j] none =
        .error (.patternMismatch "MP: The selected premises do not match the form (A -> B) and A.")) :=
  ⟨fun A B hpat =>
    ⟨applyRule_mp_ok state i j p q hp hq A B hpat,
     applyRule_mp_ok state j i q p hq hp A B hpat.symm⟩,
   fun hnone => applyRule_mp_fail state i j p q hp hq hnone⟩

/-- Witness for C3: from `P → Q` (step 1) and `P` (step 2), MP appends `Q`
in both selection orders. -/
theorem applyRule_mp_spec_witness :
    applyRule exampleState .mp [1, 2] none = .ok
      { premises := [], goal := .atom "Q",
        currentSteps :=
          [{ id := 1, formula := .binary .implies (.atom "P") (.atom "Q"), rule := .assume,
             justification := [], depth := 0 },
           { id := 2, formula := .atom "P", rule := .assume, justification := [], depth := 0 },
           { id := 3, formula := .atom "Q", rule := .mp, justification := [1, 2], depth := 0 }],
        nextId := 4 } ∧
    applyRule exampleState .mp [2, 1] none = .ok
      { premises := [], goal := .atom "Q",
        currentSteps :=
          [{ id := 1, formula := .binary .implies (.atom "P") (.atom "Q"), rule := .assume,
             justification := [], depth := 0 },
           { id := 2, formula := .atom "P", rule := .assume, justification := [], depth := 0 },
           { id := 3, formula := .atom "Q", rule := .mp, justification := [2, 1], depth := 0 }],
        nextId := 4 } :=
  (applyRule_mp_spec exampleState 1 2
    { id := 1, formula := .binary .implies (.atom "P") (.atom "Q"), rule := .assume,
      justification := [], depth := 0 }
    { id := 2, formula := .atom "P", rule := .assume, justification := [], depth := 0 }
    rfl rfl).1 (.atom "P") (.atom "Q") (Or.inl ⟨rfl, rfl⟩)
/-- Flipping discharge flags does not change step ids. -/
lemma discharge_map_ids (aid : Nat) (cs : List ProofStep) :
    (cs.map fun s =>
      if s.id = aid then { s with isDischarged := some true } else s).map ProofStep.id
      = cs.map ProofStep.id := by
  rw [List.map_map]
  apply List.map_congr_left
  intro s _
  by_cases hc : s.id = aid <;> simp [hc, Function.comp]

/-- Shape of every successful `applyRule` call: premises and goal are
untouched, `nextId` is incremented, exactly one step with id `state.nextId`
is appended, the ids of the existing steps are unchanged, the existing
steps themselves are unchanged except that the II branch may flip
`isDischarged` flags of steps sharing the assumption's id. -/
lemma applyRule_ok_master (state : ProofState) (rule : RuleName) (ids : List Nat)
    (sec : Option Formula) (s' : ProofState)
    (h : applyRule state rule ids sec = .ok s') :
    s'.premises = state.premises ∧ s'.goal = state.goal ∧ s'.nextId = state.nextId + 1 ∧
    ∃ st ts, s'.currentSteps = ts ++ [st] ∧ st.id = state.nextId ∧
      ts.map ProofStep.id = state.currentSteps.map ProofStep.id ∧
      (rule ≠ .ii → ts = state.currentSteps) ∧
      (ts = state.currentSteps ∨
        ∃ a, a ∈ state.currentSteps ∧
          ts = state.currentSteps.map (fun s =>
            if s.id = a.id then { s with isDischarged := some true } else s)) := by
  cases rule <;> simp only [applyRule] at h
  all_goals repeat' split at h
  all_goals try (exact Except.noConfusion h)
  all_goals injection h with h2
  all_goals subst h2
  all_goals
    first
      | exact ⟨rfl, rfl, rfl, _, _, rfl, rfl, rfl, fun _ => rfl, Or.inl rfl⟩
      | exact ⟨rfl, rfl, rfl, _, _, rfl, rfl, discharge_map_ids _ _,
          fun hni => absurd rfl hni,
          Or.inr ⟨_, List.mem_of_find?_eq_some ‹_›, rfl⟩⟩
/-- C7: every successful `applyRule` call returns a state whose `nextId` is
the input's `nextId + 1` and whose newly appended step carries id
`state.nextId`; consequently the invariant that `nextId` exceeds every id in
`currentSteps` is preserved. -/
theorem applyRule_id_monotone (state : ProofState) (rule : RuleName) (ids : List Nat)
    (sec : Option Formula) (s' : ProofState)
    (h : applyRule state rule ids sec = .ok s') :
    s'.nextId = state.nextId + 1 ∧
    (∃ st ts, s'.currentSteps = ts ++ [st] ∧ st.id = state.nextId ∧
       ts.length = state.currentSteps.length) ∧
    ((∀ t ∈ state.currentSteps, t.id < state.nextId) →
      ∀ t ∈ s'.currentSteps, t.id < s'.nextId) := by
  obtain ⟨hprem, hgoal, hnext, st, ts, hcs, hid, hids, hne, hdis⟩ :=
    applyRule_ok_master state rule ids sec s' h
  refine ⟨hnext, ⟨st, ts, hcs, hid, ?_⟩, ?_⟩
  · have hlen := congrArg List.length hids
    simpa using hlen
  · intro hinv t ht
    rw [hcs] at ht
    rcases List.mem_append.mp ht with hl | hr
    · have hmem : t.id ∈ ts.map ProofStep.id := List.mem_map_of_mem _ hl
      rw [hids] at hmem
      obtain ⟨u, hu, hui⟩ := List.mem_map.mp hmem
      rw [hnext, ← hui]
      exact Nat.lt_succ_of_lt (hinv u hu)
    · have heq : t = st := by simpa using hr
      rw [heq, hid, hnext]
      exact Nat.lt_succ_self _

/-- C8 (amended): every successful `applyRule` call keeps `premises` and
`goal` intact and appends exactly one new step; the existing steps are
returned unchanged except that, for rule II only, at most one existing step
(the assumption, located at one index `k` of a state with distinct step
ids) is replaced by a copy whose only changed field is
`isDischarged := some true` — a replacement that is no change at all when
that step was already discharged, which is why "exactly one step differs"
from the original claim is weakened to "at most one". -/
theorem applyRule_frame (state : ProofState) (rule : RuleName) (ids : List Nat)
    (sec : Option Formula) (s' : ProofState)
    (hnodup : (state.currentSteps.map ProofStep.id).Nodup)
    (h : applyRule state rule ids sec = .ok s') :
    s'.premises = state.premises ∧ s'.goal = state.goal ∧
    ∃ st ts, s'.currentSteps = ts ++ [st] ∧ ts.length = state.currentSteps.length ∧
      (rule ≠ .ii → ts = state.currentSteps) ∧
      (ts = state.currentSteps ∨
        ∃ k, ∃ hk : k < state.currentSteps.length,
          ts = state.currentSteps.set k
            { state.currentSteps.get ⟨k, hk⟩ with isDischarged := some true }) := by
  obtain ⟨hprem, hgoal, hnext, st, ts, hcs, hid, hids, hne, hdis⟩ :=
    applyRule_ok_master state rule ids sec s' h
  have hlen : ts.length = state.currentSteps.length := by
    have hl := congrArg List.length hids
    simpa using hl
  refine ⟨hprem, hgoal, st, ts, hcs, hlen, hne, ?_⟩
  rcases hdis with hsame | ⟨a, ha, hmap⟩
  · exact Or.inl hsame
  · obtain ⟨k, hk, hka⟩ := List.mem_iff_getElem.mp ha
    right
    refine ⟨k, hk, ?_⟩
    rw [hmap]
    apply List.ext_getElem
    · simp
    · intro m h1 h2
      have hm : m < state.currentSteps.length := by simpa using h2
      simp only [List.getElem_map, List.getElem_set]
      by_cases hkm : k = m
      · subst hkm
        rw [if_pos rfl, hka]
        simp [List.get_eq_getElem, hka]
      · rw [if_neg hkm]
        have hkb : k < (state.currentSteps.map ProofStep.id).length := by simpa using hk
        have hmb : m < (state.currentSteps.map ProofStep.id).length := by simpa using hm
        have hne2 : (state.currentSteps[m]).id ≠ a.id := by
          intro hcontra
          apply hkm
          have hidm : (state.currentSteps.map ProofStep.id)[k] =
              (state.currentSteps.map ProofStep.id)[m] := by
            simp only [List.getElem_map]
            rw [hka, hcontra]
          exact (List.Nodup.getElem_inj_iff hnodup).mp hidm
        rw [if_neg hne2]

/-- The state `applyRule exampleState .ci [1, 2] none` returns. -/
def ciResultState : ProofState :=
  { premises := [], goal := .atom "Q",
    currentSteps :=
      [{ id := 1, formula := .binary .implies (.atom "P") (.atom "Q"),
         rule := .assume, justification := [], depth := 0 },
       { id := 2, formula := .atom "P", rule := .assume, justification := [], depth := 0 },
       { id := 3,
         formula := .binary .and (.binary .implies (.atom "P") (.atom "Q")) (.atom "P"),
         rule := .ci, justification := [1, 2], depth := 0 }],
    nextId := 4 }

/-- Witness for C7: a concrete successful CI call increments `nextId` and
appends a step carrying the old `nextId`. -/
theorem applyRule_id_monotone_witness :
    ciResultState.nextId = exampleState.nextId + 1 ∧
    (∃ st ts, ciResultState.currentSteps = ts ++ [st] ∧ st.id = exampleState.nextId ∧
       ts.length = exampleState.currentSteps.length) ∧
    ((∀ t ∈ exampleState.currentSteps, t.id < exampleState.nextId) →
      ∀ t ∈ ciResultState.currentSteps, t.id < ciResultState.nextId) :=
  applyRule_id_monotone exampleState .ci [1, 2] none ciResultState rfl

/-- A state whose ASSUME step (id 1) is already discharged; step 2 is a
derived step. -/
def dischargedState : ProofState :=
  { premises := [], goal := .atom "Q", nextId := 3,
    currentSteps :=
      [{ id := 1, formula := .atom "P", rule := .assume, justification := [],
         depth := 0, isDischarged := some true },
       { id := 2, formula := .atom "Q", rule := .mp, justification := [], depth := 0 }] }

/-- Counterexample to C8 as stated: applying II with an already-discharged
assumption step succeeds, yet the two existing steps are returned exactly
unchanged (the result's `currentSteps` is literally
`dischargedState.currentSteps` plus the appended implication), so "exactly
one existing step differs in its isDischarged flag" fails — zero differ. -/
theorem applyRule_ii_changes_no_existing_step :
    applyRule dischargedState .ii [1, 2] none = .ok
      { premises := [], goal := .atom "Q",
        currentSteps := dischargedState.currentSteps ++
          [{ id := 3, formula := .binary .implies (.atom "P") (.atom "Q"), rule := .ii,
             justification := [1, 2], depth := 0, isDischarged := some false }],
        nextId := 4 } := rfl

/-- Witness for C8 (amended): the frame property at a concrete successful
CI call with distinct step ids. -/
theorem applyRule_frame_witness :
    ciResultState.premises = exampleState.premises ∧
    ciResultState.goal = exampleState.goal ∧
    ∃ st ts, ciResultState.currentSteps = ts ++ [st] ∧
      ts.length = exampleState.currentSteps.length ∧
      (RuleName.ci ≠ RuleName.ii → ts = exampleState.currentSteps) ∧
      (ts = exampleState.currentSteps ∨
        ∃ k, ∃ hk : k < exampleState.currentSteps.length,
          ts = exampleState.currentSteps.set k
            { exampleState.currentSteps.get ⟨k, hk⟩ with isDischarged := some true }) :=
  applyRule_frame exampleState .ci [1, 2] none ciResultState (by decide) rfl
